import Mathlib

/-!
# The plugin-registration shim of cmark-gfm-swift

A shallow embedding of `cmark-gfm-swift/Classes/gfm-extensions.c`:

* `gfm_extensions_registration` (lines 7-11), the callback that registers the
  mention and the checkbox extension with a plugin;
* `gfm_extensions_ensure_registered` (lines 13-20), the entry point guarded by
  the function-local `static int registered`.

The C file keeps its state in a static variable and in the engine it calls, so
the embedding passes that state explicitly (`Process`).  The engine functions
the file calls (`cmark_plugin_register_syntax_extension`,
`cmark_register_plugin`, `create_mention_extension`,
`create_checkbox_extension`) are declared in headers that are not part of the
two source files; what they do is either a parameter (`RegisterImpl`) or
modelled from the specification, and every such definition says so.
-/

namespace GfmExtensions

/-! ## The engine side -/

/-- Modelled from the spec: the extension handle, whose C type comes from the
engine headers.  Spec, data model: "Extension: a named capability bundle;
attributes: identifier string". -/
structure cmark_syntax_extension where
  identifier : String
deriving DecidableEq, Repr

/-- Modelled from the spec: the constructor declared in `mention.h`, spec
interface `create_extension(kind)` for the mention kind. -/
def create_mention_extension : cmark_syntax_extension :=
  { identifier := "mention" }

/-- Modelled from the spec: the constructor declared in `checkbox.h`, spec
interface `create_extension(kind)` for the checkbox kind. -/
def create_checkbox_extension : cmark_syntax_extension :=
  { identifier := "checkbox" }

/-- The plugin handle given to a registration callback.  `syntax_extensions` is
the ordered sequence the callback registers into; `requested` is a ghost trace
of every extension passed to `cmark_plugin_register_syntax_extension` through
this handle, in call order. -/
structure cmark_plugin where
  syntax_extensions : List cmark_syntax_extension
  requested : List cmark_syntax_extension
deriving DecidableEq, Repr

/-- What the engine does with one registration request: from the current
sequence and the extension, the `int` it returns and the sequence it leaves.
The engine is not part of the source files, so this is a parameter. -/
abbrev RegisterImpl :=
  List cmark_syntax_extension → cmark_syntax_extension → Int × List cmark_syntax_extension

/-- Modelled from the spec: the engine's `register_extension(registry, handle)
-> success|already-present`.  Spec 4.1: "`register(extension)` appends to the
ordered sequence unless an extension of the same identifier already exists, in
which case it is a no-op".  `success` is 1, `already-present` is 0. -/
def register_extension : RegisterImpl := fun registry extension =>
  if registry.any (fun e => e.identifier == extension.identifier) then (0, registry)
  else (1, registry ++ [extension])

/-- A call `cmark_plugin_register_syntax_extension(plugin, extension)`: the
engine behaviour `impl` decides the result and the new sequence, and the request
is appended to the ghost trace. -/
def cmark_plugin_register_syntax_extension (impl : RegisterImpl) (plugin : cmark_plugin)
    (extension : cmark_syntax_extension) : Int × cmark_plugin :=
  let r := impl plugin.syntax_extensions extension
  (r.1, { syntax_extensions := r.2, requested := plugin.requested ++ [extension] })

/-! ## The source file -/

/-- Source lines 7-11.
```
static int gfm_extensions_registration(cmark_plugin *plugin) {
    cmark_plugin_register_syntax_extension(plugin, create_mention_extension());
    cmark_plugin_register_syntax_extension(plugin, create_checkbox_extension());
    return 1;
}
```
Both results are discarded. -/
def gfm_extensions_registration (impl : RegisterImpl) (plugin : cmark_plugin) :
    Int × cmark_plugin :=
  let plugin := (cmark_plugin_register_syntax_extension impl plugin create_mention_extension).2
  let plugin := (cmark_plugin_register_syntax_extension impl plugin create_checkbox_extension).2
  (1, plugin)

/-- The C type of a registration callback, `int (*)(cmark_plugin *)`. -/
abbrev cmark_plugin_init_func := cmark_plugin → Int × cmark_plugin

/-- The process state the entry point reads and writes: the static latch
`registered`, the engine's registry, and a ghost trace of the callbacks handed
to `cmark_register_plugin`, in call order. -/
structure Process where
  registered : Int
  plugin_calls : List cmark_plugin_init_func
  registry : List cmark_syntax_extension

/-- The state at process start: `static int registered = 0`, nothing registered,
no call made. -/
def Process.initial : Process :=
  { registered := 0, plugin_calls := [], registry := [] }

/-- Modelled from the spec: the engine's `cmark_register_plugin`, the
"registration API" the shim calls.  The callback is run on a handle to the
registry (spec interface `register_extension(registry, handle)`) and what it
registered is the registry afterwards; the spec gives the callback's `int`
result no role.  The call is appended to the ghost trace. -/
def cmark_register_plugin (reg_fn : cmark_plugin_init_func) (w : Process) : Process :=
  let plugin := (reg_fn { syntax_extensions := w.registry, requested := [] }).2
  { w with plugin_calls := w.plugin_calls ++ [reg_fn], registry := plugin.syntax_extensions }

/-- Source lines 13-20.
```
void gfm_extensions_ensure_registered(void) {
    static int registered = 0;
    if (!registered) {
        cmark_register_plugin(gfm_extensions_registration);
        registered = 1;
    }
}
```
-/
def gfm_extensions_ensure_registered (impl : RegisterImpl) (w : Process) : Process :=
  if w.registered = 0 then
    let w := cmark_register_plugin (gfm_extensions_registration impl) w
    { w with registered := 1 }
  else
    w

/-- The state after `n` sequential calls of the entry point, starting in `w`. -/
def calls (impl : RegisterImpl) : Nat → Process → Process
  | 0, w => w
  | n + 1, w => calls impl n (gfm_extensions_ensure_registered impl w)

/-- The states reachable from process start by calls of the entry point. -/
inductive Reachable (impl : RegisterImpl) : Process → Prop
  | start : Reachable impl Process.initial
  | call {w : Process} : Reachable impl w →
      Reachable impl (gfm_extensions_ensure_registered impl w)

/-- How many extensions of a sequence carry the identifier `name`. -/
def count_named (name : String) (registry : List cmark_syntax_extension) : Nat :=
  registry.countP (fun e => e.identifier == name)

/-! ## Concurrent callers

Several threads execute `gfm_extensions_ensure_registered` over the same
process state.  The function body is cut at its statements; a thread performs
one statement at a time and a schedule decides whose turn it is.  Every
statement, the engine call included, is taken to be atomic and its effect
visible to all threads at once. -/

/-- The statement a thread executes next inside
`gfm_extensions_ensure_registered`. -/
inductive Pc
  /-- Line 16: evaluate `!registered` and branch. -/
  | at_test
  /-- Line 17: `cmark_register_plugin(gfm_extensions_registration);`. -/
  | at_register
  /-- Line 18: `registered = 1;`. -/
  | at_store
  /-- Line 20: the call has returned. -/
  | returned
deriving DecidableEq, Repr

/-- The state of a set of threads inside the entry point: the shared process
state, the next statement of each thread, and a ghost trace of the threads
that executed line 17, in execution order. -/
structure Threads where
  shared : Process
  pcs : List Pc
  body_runs : List Nat

/-- The state in which `T` threads have entered the entry point at process
start and none has executed a statement yet. -/
def Threads.start (T : Nat) : Threads :=
  { shared := Process.initial, pcs := List.replicate T Pc.at_test, body_runs := [] }

/-- Thread `t` executes its next statement of
`gfm_extensions_ensure_registered`; a thread that has returned, or does not
exist, does nothing. -/
def thread_step (impl : RegisterImpl) (t : Nat) (c : Threads) : Threads :=
  match c.pcs[t]? with
  | some Pc.at_test =>
    if c.shared.registered = 0 then { c with pcs := c.pcs.set t Pc.at_register }
    else { c with pcs := c.pcs.set t Pc.returned }
  | some Pc.at_register =>
    { shared := cmark_register_plugin (gfm_extensions_registration impl) c.shared
      pcs := c.pcs.set t Pc.at_store
      body_runs := c.body_runs ++ [t] }
  | some Pc.at_store =>
    { c with shared := { c.shared with registered := 1 }, pcs := c.pcs.set t Pc.returned }
  | some Pc.returned => c
  | none => c

/-- The state after the threads took their turns in the order `schedule`. -/
def run_schedule (impl : RegisterImpl) (schedule : List Nat) (c : Threads) : Threads :=
  schedule.foldl (fun c t => thread_step impl t c) c

lemma ensure_registered_of_set (impl : RegisterImpl) (w : Process) (h : w.registered ≠ 0) :
    gfm_extensions_ensure_registered impl w = w := by
  simp [gfm_extensions_ensure_registered, h]

lemma ensure_registered_of_clear (impl : RegisterImpl) (w : Process) (h : w.registered = 0) :
    gfm_extensions_ensure_registered impl w =
      { registered := 1
        plugin_calls := w.plugin_calls ++ [gfm_extensions_registration impl]
        registry := (gfm_extensions_registration impl
          { syntax_extensions := w.registry, requested := [] }).2.syntax_extensions } := by
  simp [gfm_extensions_ensure_registered, cmark_register_plugin, h]

lemma ensure_registered_latch (impl : RegisterImpl) (w : Process) :
    (gfm_extensions_ensure_registered impl w).registered ≠ 0 := by
  by_cases h : w.registered = 0
  · rw [ensure_registered_of_clear impl w h]; simp
  · rw [ensure_registered_of_set impl w h]; exact h

lemma calls_of_set (impl : RegisterImpl) (n : Nat) (w : Process) (h : w.registered ≠ 0) :
    calls impl n w = w := by
  induction n with
  | zero => rfl
  | succ n ih => rw [calls, ensure_registered_of_set impl w h, ih]

lemma calls_succ (impl : RegisterImpl) (n : Nat) (w : Process) :
    calls impl (n + 1) w = gfm_extensions_ensure_registered impl w := by
  rw [calls, calls_of_set impl n _ (ensure_registered_latch impl w)]

lemma calls_add (impl : RegisterImpl) (m k : Nat) (w : Process) :
    calls impl (m + k) w = calls impl k (calls impl m w) := by
  induction m generalizing w with
  | zero => simp [calls]
  | succ m ih => rw [Nat.add_right_comm, calls, ih, calls]

lemma reachable_calls (impl : RegisterImpl) (n : Nat) :
    Reachable impl (calls impl n Process.initial) := by
  cases n with
  | zero => exact Reachable.start
  | succ n => rw [calls_succ]; exact Reachable.call Reachable.start

lemma reachable_cases (impl : RegisterImpl) (w : Process) (h : Reachable impl w) :
    w = Process.initial ∨ w = gfm_extensions_ensure_registered impl Process.initial := by
  induction h with
  | start => exact Or.inl rfl
  | call _ ih =>
    rcases ih with ih | ih
    · right; rw [ih]
    · right
      rw [ih, ensure_registered_of_set impl _ (ensure_registered_latch impl _)]

lemma ensure_registered_initial (impl : RegisterImpl) :
    gfm_extensions_ensure_registered impl Process.initial =
      { registered := 1
        plugin_calls := [gfm_extensions_registration impl]
        registry := (gfm_extensions_registration impl
          { syntax_extensions := [], requested := [] }).2.syntax_extensions } := by
  rw [ensure_registered_of_clear impl _ rfl]; rfl

lemma register_extension_extends (registry : List cmark_syntax_extension)
    (extension : cmark_syntax_extension) :
    registry <+: (register_extension registry extension).2 := by
  unfold register_extension
  split
  · exact List.prefix_refl _
  · exact List.prefix_append _ _

lemma registration_extends (p : cmark_plugin) :
    p.syntax_extensions <+: (gfm_extensions_registration register_extension p).2.syntax_extensions := by
  simp only [gfm_extensions_registration, cmark_plugin_register_syntax_extension]
  exact (register_extension_extends _ _).trans (register_extension_extends _ _)

lemma ensure_registered_extends (w : Process) :
    w.registry <+: (gfm_extensions_ensure_registered register_extension w).registry := by
  by_cases h : w.registered = 0
  · rw [ensure_registered_of_clear _ w h]
    exact registration_extends { syntax_extensions := w.registry, requested := [] }
  · rw [ensure_registered_of_set _ w h]

/-! ## Facts about interleaved executions -/

/-- A thread that runs its three statements without another thread in between
does to the shared state what one call of the entry point does. -/
lemma solo_run (impl : RegisterImpl) (t : Nat) (c : Threads) (h : c.pcs[t]? = some Pc.at_test) :
    (run_schedule impl [t, t, t] c).shared = gfm_extensions_ensure_registered impl c.shared
    ∧ (run_schedule impl [t, t, t] c).pcs = c.pcs.set t Pc.returned := by
  have ht : t < c.pcs.length := by
    by_contra hlt
    rw [List.getElem?_eq_none (by omega)] at h
    exact Option.noConfusion h
  by_cases h0 : c.shared.registered = 0
  · simp [run_schedule, thread_step, h, h0, ht, gfm_extensions_ensure_registered]
  · simp [run_schedule, thread_step, h, h0, ht, gfm_extensions_ensure_registered]

/-- C1. For every `N ≥ 1`, `N` sequential calls of the entry point from process
start leave the same state as a single call: the callback
`gfm_extensions_registration` has been handed to `cmark_register_plugin` exactly
once, and the registry holds exactly one mention and exactly one checkbox
extension. -/
theorem ensure_registered_idempotent (N : Nat) (hN : 1 ≤ N) :
    calls register_extension N Process.initial = calls register_extension 1 Process.initial
    ∧ (calls register_extension N Process.initial).plugin_calls
        = [gfm_extensions_registration register_extension]
    ∧ count_named "mention" (calls register_extension N Process.initial).registry = 1
    ∧ count_named "checkbox" (calls register_extension N Process.initial).registry = 1 := by
  obtain ⟨n, rfl⟩ : ∃ n, N = n + 1 := ⟨N - 1, by omega⟩
  rw [calls_succ, calls_succ, ensure_registered_initial]
  exact ⟨rfl, rfl, by decide, by decide⟩

theorem ensure_registered_idempotent_witness :
    calls register_extension 5 Process.initial = calls register_extension 1 Process.initial
    ∧ (calls register_extension 5 Process.initial).plugin_calls
        = [gfm_extensions_registration register_extension]
    ∧ count_named "mention" (calls register_extension 5 Process.initial).registry = 1
    ∧ count_named "checkbox" (calls register_extension 5 Process.initial).registry = 1 :=
  ensure_registered_idempotent 5 (by decide)

/-- C2. For every plugin state, the callback requests the mention extension
first and the checkbox extension second and requests nothing else, and the
sequence it leaves is the old one followed by those of the two, in that order,
that were not yet present; so the first call of the entry point from process
start leaves the registry equal to `[mention, checkbox]`. -/
theorem registration_fixed_order (p : cmark_plugin) :
    (gfm_extensions_registration register_extension p).2.requested
        = p.requested ++ [create_mention_extension, create_checkbox_extension]
    ∧ (gfm_extensions_registration register_extension p).2.syntax_extensions
        = p.syntax_extensions
            ++ [create_mention_extension, create_checkbox_extension].filter
                (fun e => !p.syntax_extensions.any (fun x => x.identifier == e.identifier))
    ∧ (gfm_extensions_ensure_registered register_extension Process.initial).registry
        = [create_mention_extension, create_checkbox_extension] := by
  refine ⟨?_, ?_, by decide⟩
  · simp [gfm_extensions_registration, cmark_plugin_register_syntax_extension]
  · simp only [gfm_extensions_registration, cmark_plugin_register_syntax_extension,
      register_extension, create_mention_extension, create_checkbox_extension]
    cases hm : p.syntax_extensions.any (fun x => x.identifier == "mention") <;>
    cases hc : p.syntax_extensions.any (fun x => x.identifier == "checkbox") <;>
    simp [hm, hc, List.any_append, List.filter]

theorem registration_fixed_order_check :
    (gfm_extensions_registration register_extension
        { syntax_extensions := [create_checkbox_extension], requested := [] }).2
      = { syntax_extensions := [create_checkbox_extension, create_mention_extension]
          requested := [create_mention_extension, create_checkbox_extension] } := by
  decide

/-- C3. In every state whose latch `registered` is set (any non-zero value,
whatever the registry holds), a call of the entry point makes no call of
`cmark_register_plugin` and returns the state it was given: the latch keeps its
value and the registry is the same sequence. -/
theorem ensure_registered_frame (impl : RegisterImpl) (w : Process) (h : w.registered ≠ 0) :
    gfm_extensions_ensure_registered impl w = w
    ∧ (gfm_extensions_ensure_registered impl w).plugin_calls = w.plugin_calls
    ∧ (gfm_extensions_ensure_registered impl w).registered = w.registered
    ∧ (gfm_extensions_ensure_registered impl w).registry = w.registry := by
  rw [ensure_registered_of_set impl w h]
  exact ⟨rfl, rfl, rfl, rfl⟩

theorem ensure_registered_frame_witness :
    gfm_extensions_ensure_registered register_extension
        { registered := 1, plugin_calls := [], registry := [{ identifier := "table" }] }
      = { registered := 1, plugin_calls := [], registry := [{ identifier := "table" }] }
    ∧ (gfm_extensions_ensure_registered register_extension
        { registered := 1, plugin_calls := [], registry := [{ identifier := "table" }] }).plugin_calls
      = []
    ∧ (gfm_extensions_ensure_registered register_extension
        { registered := 1, plugin_calls := [], registry := [{ identifier := "table" }] }).registered
      = 1
    ∧ (gfm_extensions_ensure_registered register_extension
        { registered := 1, plugin_calls := [], registry := [{ identifier := "table" }] }).registry
      = [{ identifier := "table" }] :=
  ensure_registered_frame register_extension
    { registered := 1, plugin_calls := [], registry := [{ identifier := "table" }] } (by decide)

/-- C4. In every state reachable from process start by calls of the entry
point, one more call returns with both the mention and the checkbox extension in
the registry, however many calls were made before. -/
theorem ensure_registered_available (w : Process) (h : Reachable register_extension w) :
    create_mention_extension ∈ (gfm_extensions_ensure_registered register_extension w).registry
    ∧ create_checkbox_extension
        ∈ (gfm_extensions_ensure_registered register_extension w).registry := by
  have key : gfm_extensions_ensure_registered register_extension w
      = gfm_extensions_ensure_registered register_extension Process.initial := by
    rcases reachable_cases _ w h with hw | hw
    · rw [hw]
    · rw [hw, ensure_registered_of_set _ _ (ensure_registered_latch _ _)]
  rw [key]
  exact ⟨by decide, by decide⟩

theorem ensure_registered_available_witness :
    create_mention_extension
        ∈ (gfm_extensions_ensure_registered register_extension Process.initial).registry
    ∧ create_checkbox_extension
        ∈ (gfm_extensions_ensure_registered register_extension Process.initial).registry :=
  ensure_registered_available Process.initial Reachable.start

/-- C5. Along every sequence of calls of the entry point, from any state: once
the latch is set it keeps its value (it never returns to 0), and the registry
after `n` calls extends the registry after `m ≤ n` calls, so nothing is ever
removed. -/
theorem ensure_registered_monotone (w : Process) (m n : Nat) (hmn : m ≤ n) :
    ((calls register_extension m w).registered ≠ 0 →
        (calls register_extension n w).registered = (calls register_extension m w).registered)
    ∧ (calls register_extension m w).registry <+: (calls register_extension n w).registry := by
  obtain ⟨k, rfl⟩ : ∃ k, n = m + k := ⟨n - m, by omega⟩
  rw [calls_add]
  generalize calls register_extension m w = v
  constructor
  · intro hv
    rw [calls_of_set _ k v hv]
  · cases k with
    | zero => exact List.prefix_refl _
    | succ k =>
      rw [calls_succ]
      exact ensure_registered_extends v

theorem ensure_registered_monotone_witness :
    ((calls register_extension 1 Process.initial).registered ≠ 0 →
        (calls register_extension 3 Process.initial).registered
          = (calls register_extension 1 Process.initial).registered)
    ∧ (calls register_extension 1 Process.initial).registry
        <+: (calls register_extension 3 Process.initial).registry :=
  ensure_registered_monotone Process.initial 1 3 (by decide)

/-- Two threads whose calls do not overlap (thread 0 runs to its return, then
thread 1): the body is executed once, by thread 0. -/
theorem sequential_schedule_check :
    (run_schedule register_extension [0, 0, 0, 1, 1, 1] (Threads.start 2)).shared.plugin_calls.length
      = 1
    ∧ (run_schedule register_extension [0, 0, 0, 1, 1, 1] (Threads.start 2)).body_runs = [0]
    ∧ (run_schedule register_extension [0, 0, 0, 1, 1, 1] (Threads.start 2)).pcs
      = [Pc.returned, Pc.returned] := by
  decide

/-- C7. In every state reachable from process start by calls of the entry
point, the latch is 1 exactly when `cmark_register_plugin` has been called once,
with `gfm_extensions_registration`; it is 0 exactly when no call has been made;
and the number of calls is at most 1. -/
theorem latch_tracks_registration (impl : RegisterImpl) (w : Process)
    (h : Reachable impl w) :
    (w.registered = 1 ↔ w.plugin_calls = [gfm_extensions_registration impl])
    ∧ (w.registered = 0 ↔ w.plugin_calls = [])
    ∧ w.plugin_calls.length ≤ 1 := by
  rcases reachable_cases impl w h with hw | hw
  · subst hw
    simp [Process.initial]
  · rw [hw, ensure_registered_initial]
    simp

theorem latch_tracks_registration_witness :
    ((gfm_extensions_ensure_registered register_extension Process.initial).registered = 1 ↔
        (gfm_extensions_ensure_registered register_extension Process.initial).plugin_calls
          = [gfm_extensions_registration register_extension])
    ∧ ((gfm_extensions_ensure_registered register_extension Process.initial).registered = 0 ↔
        (gfm_extensions_ensure_registered register_extension Process.initial).plugin_calls = [])
    ∧ (gfm_extensions_ensure_registered register_extension Process.initial).plugin_calls.length
        ≤ 1 :=
  latch_tracks_registration register_extension _ (Reachable.call Reachable.start)

/-- C8. Whatever the engine does with the two registration requests and whatever
it returns for them (success, already-present, a failure code), the callback
returns 1, and it has requested the mention extension and then the checkbox
extension: the checkbox request is made whatever the mention request returned. -/
theorem registration_reports_success (impl : RegisterImpl) (p : cmark_plugin) :
    (gfm_extensions_registration impl p).1 = 1
    ∧ (gfm_extensions_registration impl p).2.requested
        = p.requested ++ [create_mention_extension, create_checkbox_extension] := by
  simp [gfm_extensions_registration, cmark_plugin_register_syntax_extension]

/-- The callback over an engine that rejects every request with result 0 and
registers nothing: it still returns 1 and has made both requests. -/
theorem registration_rejecting_engine_check :
    gfm_extensions_registration (fun registry _ => (0, registry))
        { syntax_extensions := [], requested := [] }
      = (1, { syntax_extensions := []
              requested := [create_mention_extension, create_checkbox_extension] }) := by
  decide

end GfmExtensions
